import Mathlib

/-!
Verification development for the aurora-core orchestration layer.

The definitions below are a shallow embedding of the repository's core:
the handler manager (entity-to-handler bindings, boot restore, connectivity
tracking), the singleton settings store and handler-manager initialisation
guards, the ClassicRotate triangle-wave motion math, the Centurion tape
scheduler (skip and cue dispatch), and the mode controllers.

Machine numbers (TypeScript `number`) are embedded as rationals; fallible
operations return `Except`.  Code of the repository that is not part of the
provided sources (the base handler's entity set, the Centurion mode object)
is modelled from the specification and marked as such in doc comments.
-/

namespace Aurora

/-- Device-entity categories handled by the manager: `Audio`, `LightsGroup`,
`Screen` (the keys of `HandlerManager._handlers`). -/
inductive Category where
  | audio
  | lights
  | screen
deriving DecidableEq

/-- A persisted `SubscribeEntity`: id, name, category, the persisted
`currentHandler` name and the transient `socketId`. -/
structure DeviceEntity where
  id : Nat
  name : String
  category : Category
  currentHandler : String
  socketId : Option String
deriving DecidableEq

/-- A runtime handler: its class identity (`constructor.name`) and the
entities currently registered with it. -/
structure Handler where
  name : String
  entities : List DeviceEntity
deriving DecidableEq

/-- Whether the handler currently holds an entity with the given id. -/
def Handler.hasEntity (h : Handler) (eid : Nat) : Bool :=
  h.entities.any (fun x => decide (x.id = eid))

/-- Modelled from the spec: `BaseHandler.registerEntity` is not under the
provided sources.  A handler "owns a set of currently-registered
DeviceEntity references (membership only)", so registering adds the entity
to the set if it is not already a member. -/
def Handler.registerEntity (h : Handler) (e : DeviceEntity) : Handler :=
  if h.hasEntity e.id then h else { h with entities := h.entities ++ [e] }

/-- Modelled from the spec: `BaseHandler.removeEntity` is not under the
provided sources.  Deregistering removes the entity from the handler's set
(idempotent if absent). -/
def Handler.removeEntity (h : Handler) (e : DeviceEntity) : Handler :=
  { h with entities := h.entities.filter (fun x => decide (x.id ≠ e.id)) }

/-- The handler map of the manager: per category, the list of handlers
(`HandlerManager._handlers`). -/
def HandlerMap : Type := Category → List Handler

/-- `HandlerManager.getHandlers(entity)`: the handlers of one category. -/
def getHandlersOf (st : HandlerMap) (c : Category) : List Handler := st c

/-- The body of `HandlerManager.registerHandler` acting on the handler list
of the entity's category: first deregister the entity from every handler,
then, unless the new handler name is the empty string, register it with
every handler whose identity matches the name. -/
def registerHandlerList (handlers : List Handler) (e : DeviceEntity)
    (newHandler : String) : List Handler :=
  let removed := handlers.map (fun h => h.removeEntity e)
  if newHandler = "" then removed
  else removed.map (fun h => if h.name = newHandler then h.registerEntity e else h)

/-- `HandlerManager.registerHandler` at the manager level: only the handler
list of the entity's category is touched. -/
def registerHandlerM (st : HandlerMap) (e : DeviceEntity) (n : String) : HandlerMap :=
  fun c => if c = e.category then registerHandlerList (st c) e n else st c

/-- `HandlerManager.restoreHandlers`: register the entity with every handler
whose identity matches the entity's persisted `currentHandler`. -/
def restoreHandlers (e : DeviceEntity) (handlers : List Handler) : List Handler :=
  handlers.map (fun h => if h.name = e.currentHandler then h.registerEntity e else h)

/-- The boot-restore loop of `HandlerManager.init` for one category: restore
every fetched entity into the category's handler list. -/
def initRestore (ents : List DeviceEntity) (handlers : List Handler) : List Handler :=
  ents.foldl (fun acc e => restoreHandlers e acc) handlers

/-- How many handlers of the list currently hold an entity with this id. -/
def countRegistered (handlers : List Handler) (eid : Nat) : Nat :=
  handlers.countP (fun h => h.hasEntity eid)

/-- Handler identities are pairwise distinct (true of the fixed handler sets
built in the `HandlerManager` constructor). -/
def distinctNames (handlers : List Handler) : Prop :=
  handlers.Pairwise (fun a b => a.name ≠ b.name)

instance (handlers : List Handler) : Decidable (distinctNames handlers) := by
  unfold distinctNames
  infer_instance

theorem Handler.name_removeEntity (h : Handler) (e : DeviceEntity) :
    (h.removeEntity e).name = h.name := rfl

theorem Handler.name_registerEntity (h : Handler) (e : DeviceEntity) :
    (h.registerEntity e).name = h.name := by
  unfold Handler.registerEntity
  split <;> rfl

theorem Handler.hasEntity_removeEntity (h : Handler) (e : DeviceEntity) (eid : Nat) :
    (h.removeEntity e).hasEntity eid = if eid = e.id then false else h.hasEntity eid := by
  show (h.entities.filter fun x => decide (x.id ≠ e.id)).any (fun x => decide (x.id = eid))
      = if eid = e.id then false else h.entities.any fun x => decide (x.id = eid)
  rw [List.any_filter]
  by_cases he : eid = e.id
  · subst he
    rw [if_pos rfl]
    have hfun : (fun a : DeviceEntity => decide (a.id ≠ e.id) && decide (a.id = e.id))
        = fun _ : DeviceEntity => false := by
      funext a
      by_cases ha : a.id = e.id <;> simp [ha]
    rw [hfun]
    simp
  · rw [if_neg he]
    have hfun : (fun a : DeviceEntity => decide (a.id ≠ e.id) && decide (a.id = eid))
        = fun a : DeviceEntity => decide (a.id = eid) := by
      funext a
      by_cases ha : a.id = eid
      · have hne : a.id ≠ e.id := by rw [ha]; exact he
        simp [ha, hne, he]
      · simp [ha]
    rw [hfun]

theorem Handler.hasEntity_registerEntity (h : Handler) (e : DeviceEntity) (eid : Nat) :
    (h.registerEntity e).hasEntity eid = (h.hasEntity eid || decide (eid = e.id)) := by
  unfold Handler.registerEntity
  by_cases hp : h.hasEntity e.id
  · rw [if_pos hp]
    by_cases he : eid = e.id
    · subst he
      simp [hp]
    · simp [he]
  · rw [if_neg hp]
    show (List.any _ _) = _
    unfold Handler.hasEntity
    by_cases he : eid = e.id
    · subst he
      simp [List.any_append]
    · simp only [List.any_append, List.any_cons, List.any_nil]
      have : (decide (e.id = eid)) = false := by
        simp
        exact fun hh => he hh.symm
      simp [this, he]

/-- Handlers whose identities are pairwise distinct contain at most one
handler with any given name. -/
theorem countP_name_le_one (handlers : List Handler) (n : String)
    (hd : distinctNames handlers) :
    handlers.countP (fun h => decide (h.name = n)) ≤ 1 := by
  induction handlers with
  | nil => simp
  | cons h t ih =>
    rw [distinctNames, List.pairwise_cons] at hd
    by_cases hn : h.name = n
    · have hzero : t.countP (fun h => decide (h.name = n)) = 0 := by
        rw [List.countP_eq_zero]
        intro h' hh'
        have := hd.1 h' hh'
        simp only [decide_eq_true_eq]
        rw [← hn]
        exact fun hh => this hh.symm
      simp [List.countP_cons, hn, hzero]
    · have := ih hd.2
      simp only [List.countP_cons, hn]
      simpa using this

theorem countRegistered_of_all_empty (handlers : List Handler) (eid : Nat)
    (hz : ∀ h ∈ handlers, h.entities = []) :
    countRegistered handlers eid = 0 := by
  rw [countRegistered, List.countP_eq_zero]
  intro h hh
  simp [Handler.hasEntity, hz h hh]

theorem registerHandlerList_cons (h : Handler) (t : List Handler)
    (e : DeviceEntity) (n : String) (hne : n ≠ "") :
    registerHandlerList (h :: t) e n
      = (if (h.removeEntity e).name = n then (h.removeEntity e).registerEntity e
          else h.removeEntity e) :: registerHandlerList t e n := by
  simp [registerHandlerList, hne]

theorem registerHandlerList_filter_not_named (t : List Handler) (e : DeviceEntity)
    (n : String) (hne : n ≠ "") (hall : ∀ h ∈ t, h.name ≠ n) :
    (registerHandlerList t e n).filter (fun h => h.hasEntity e.id) = [] := by
  induction t with
  | nil => simp [registerHandlerList, hne]
  | cons h t ih =>
    rw [registerHandlerList_cons h t e n hne]
    have hn : (h.removeEntity e).name ≠ n := by
      rw [Handler.name_removeEntity]
      exact hall h (List.mem_cons_self h t)
    rw [if_neg hn]
    have hfalse : (h.removeEntity e).hasEntity e.id = false := by
      rw [Handler.hasEntity_removeEntity, if_pos rfl]
    rw [List.filter_cons, hfalse]
    simp only [Bool.false_eq_true, if_neg]
    exact ih (fun h' hh' => hall h' (List.mem_cons_of_mem h hh'))

theorem registerHandlerList_filter_named (handlers : List Handler) (e : DeviceEntity)
    (n : String) (hd : distinctNames handlers) (hne : n ≠ "")
    (hmem : n ∈ handlers.map (fun h => h.name)) :
    ((registerHandlerList handlers e n).filter (fun h => h.hasEntity e.id)).map
        (fun h => h.name) = [n] := by
  induction handlers with
  | nil => simp at hmem
  | cons h t ih =>
    rw [distinctNames, List.pairwise_cons] at hd
    rw [registerHandlerList_cons h t e n hne]
    by_cases hn : h.name = n
    · have hn' : (h.removeEntity e).name = n := by rw [Handler.name_removeEntity]; exact hn
      rw [if_pos hn']
      have htrue : ((h.removeEntity e).registerEntity e).hasEntity e.id = true := by
        rw [Handler.hasEntity_registerEntity]
        simp
      have htail : (registerHandlerList t e n).filter (fun h => h.hasEntity e.id) = [] := by
        apply registerHandlerList_filter_not_named t e n hne
        intro h' hh'
        have := hd.1 h' hh'
        rw [← hn]
        exact fun hh => this hh.symm
      rw [List.filter_cons, htrue]
      simp only [if_pos trivial, htail]
      simp [Handler.name_registerEntity, hn']
    · have hn' : (h.removeEntity e).name ≠ n := by
        rw [Handler.name_removeEntity]; exact hn
      rw [if_neg hn']
      have hfalse : (h.removeEntity e).hasEntity e.id = false := by
        rw [Handler.hasEntity_removeEntity, if_pos rfl]
      rw [List.filter_cons, hfalse]
      simp only [Bool.false_eq_true, if_neg]
      apply ih hd.2
      rcases List.mem_map.mp hmem with ⟨h', hh', hname⟩
      rcases List.mem_cons.mp hh' with hh | hh
      · exact absurd (hh ▸ hname) hn
      · exact List.mem_map.mpr ⟨h', hh, hname⟩

theorem registerHandlerList_filter_empty (handlers : List Handler) (e : DeviceEntity) :
    (registerHandlerList handlers e "").filter (fun h => h.hasEntity e.id) = [] := by
  rw [registerHandlerList]
  simp only [if_pos rfl]
  rw [List.filter_eq_nil_iff]
  intro h hh
  rcases List.mem_map.mp hh with ⟨h', _, rfl⟩
  rw [Handler.hasEntity_removeEntity, if_pos rfl]
  simp

theorem getHandlersOf_registerHandlerM_self (st : HandlerMap) (e : DeviceEntity)
    (n : String) :
    getHandlersOf (registerHandlerM st e n) e.category
      = registerHandlerList (st e.category) e n := by
  simp [getHandlersOf, registerHandlerM]

theorem countRegistered_registerHandlerList_self (handlers : List Handler)
    (e : DeviceEntity) (n : String) (hd : distinctNames handlers) :
    countRegistered (registerHandlerList handlers e n) e.id ≤ 1 := by
  by_cases hne : n = ""
  · subst hne
    rw [countRegistered, List.countP_eq_length_filter,
      registerHandlerList_filter_empty handlers e]
    simp
  · by_cases hmem : n ∈ handlers.map (fun h => h.name)
    · have hone := registerHandlerList_filter_named handlers e n hd hne hmem
      have hlen : ((registerHandlerList handlers e n).filter
          (fun h => h.hasEntity e.id)).length = 1 := by
        have := congrArg List.length hone
        simpa using this
      rw [countRegistered, List.countP_eq_length_filter, hlen]
    · have hall : ∀ h ∈ handlers, h.name ≠ n := by
        intro h hh hcontra
        exact hmem (List.mem_map.mpr ⟨h, hh, hcontra⟩)
      rw [countRegistered, List.countP_eq_length_filter,
        registerHandlerList_filter_not_named handlers e n hne hall]
      simp

theorem countRegistered_registerHandlerList_other (handlers : List Handler)
    (e : DeviceEntity) (n : String) (eid : Nat) (hne : eid ≠ e.id) :
    countRegistered (registerHandlerList handlers e n) eid
      = countRegistered handlers eid := by
  rw [countRegistered, countRegistered]
  simp only [registerHandlerList]
  by_cases hn : n = ""
  · rw [if_pos hn, List.countP_map]
    apply List.countP_congr
    intro h _
    show ((h.removeEntity e).hasEntity eid = true) ↔ (h.hasEntity eid = true)
    rw [Handler.hasEntity_removeEntity, if_neg hne]
  · rw [if_neg hn, List.countP_map, List.countP_map]
    apply List.countP_congr
    intro h _
    show ((fun h : Handler => h.hasEntity eid)
        ((fun h : Handler => if h.name = n then h.registerEntity e else h)
          (h.removeEntity e)) = true) ↔ (h.hasEntity eid = true)
    by_cases hname : (h.removeEntity e).name = n
    · simp only [if_pos hname]
      rw [Handler.hasEntity_registerEntity, Handler.hasEntity_removeEntity,
        if_neg hne]
      simp [hne]
    · simp only [if_neg hname]
      rw [Handler.hasEntity_removeEntity, if_neg hne]

theorem countRegistered_restoreHandlers_other (handlers : List Handler)
    (e : DeviceEntity) (eid : Nat) (hne : eid ≠ e.id) :
    countRegistered (restoreHandlers e handlers) eid
      = countRegistered handlers eid := by
  rw [countRegistered, countRegistered, restoreHandlers, List.countP_map]
  apply List.countP_congr
  intro h _
  show ((fun h : Handler => h.hasEntity eid)
      (if h.name = e.currentHandler then h.registerEntity e else h) = true)
      ↔ (h.hasEntity eid = true)
  by_cases hname : h.name = e.currentHandler
  · simp only [if_pos hname]
    rw [Handler.hasEntity_registerEntity]
    simp [hne]
  · simp only [if_neg hname]

theorem countRegistered_restoreHandlers_self (handlers : List Handler)
    (e : DeviceEntity) (hd : distinctNames handlers)
    (h0 : countRegistered handlers e.id = 0) :
    countRegistered (restoreHandlers e handlers) e.id ≤ 1 := by
  rw [countRegistered, restoreHandlers, List.countP_map]
  have hz : ∀ h ∈ handlers, h.hasEntity e.id = false := by
    rw [countRegistered, List.countP_eq_zero] at h0
    intro h hh
    simpa using h0 h hh
  have hcong : handlers.countP ((fun h : Handler => h.hasEntity e.id)
        ∘ fun h => if h.name = e.currentHandler then h.registerEntity e else h)
      = handlers.countP (fun h => decide (h.name = e.currentHandler)) := by
    apply List.countP_congr
    intro h hh
    show ((fun h : Handler => h.hasEntity e.id)
        (if h.name = e.currentHandler then h.registerEntity e else h) = true)
        ↔ (decide (h.name = e.currentHandler) = true)
    by_cases hname : h.name = e.currentHandler
    · simp only [if_pos hname]
      rw [Handler.hasEntity_registerEntity, hz h hh]
      simp [hname]
    · simp only [if_neg hname]
      rw [hz h hh]
      simp [hname]
  rw [hcong]
  exact countP_name_le_one handlers e.currentHandler hd

theorem restoreHandlers_names (handlers : List Handler) (e : DeviceEntity) :
    (restoreHandlers e handlers).map (fun h => h.name)
      = handlers.map (fun h => h.name) := by
  rw [restoreHandlers, List.map_map]
  apply List.map_congr_left
  intro h _
  show (fun h : Handler => h.name)
      (if h.name = e.currentHandler then h.registerEntity e else h) = h.name
  by_cases hname : h.name = e.currentHandler
  · simp only [if_pos hname]
    exact Handler.name_registerEntity h e
  · simp only [if_neg hname]

theorem distinctNames_restoreHandlers (handlers : List Handler) (e : DeviceEntity)
    (hd : distinctNames handlers) : distinctNames (restoreHandlers e handlers) := by
  have hname : ∀ h : Handler,
      ((if h.name = e.currentHandler then h.registerEntity e else h) : Handler).name
        = h.name := by
    intro h
    by_cases hh : h.name = e.currentHandler
    · rw [if_pos hh, Handler.name_registerEntity]
    · rw [if_neg hh]
  rw [distinctNames, restoreHandlers, List.pairwise_map]
  rw [distinctNames] at hd
  apply hd.imp
  intro a b hab
  rw [hname a, hname b]
  exact hab

/-- The boot-restore fold keeps every entity registered with at most one
handler, provided handler identities are distinct, the entities fetched from
the database have distinct ids, and no fetched entity is registered yet. -/
theorem initRestore_le_one (ents : List DeviceEntity) :
    ∀ handlers : List Handler, distinctNames handlers →
      (∀ eid, countRegistered handlers eid ≤ 1) →
      (∀ e ∈ ents, countRegistered handlers e.id = 0) →
      ents.Pairwise (fun a b => a.id ≠ b.id) →
      ∀ eid, countRegistered (initRestore ents handlers) eid ≤ 1 := by
  induction ents with
  | nil =>
    intro handlers _ hle _ _ eid
    exact hle eid
  | cons e rest ih =>
    intro handlers hd hle h0 hp eid
    rw [List.pairwise_cons] at hp
    show countRegistered (initRestore rest (restoreHandlers e handlers)) eid ≤ 1
    apply ih (restoreHandlers e handlers)
    · exact distinctNames_restoreHandlers handlers e hd
    · intro eid'
      by_cases heq : eid' = e.id
      · subst heq
        exact countRegistered_restoreHandlers_self handlers e hd
          (h0 e (List.mem_cons_self e rest))
      · rw [countRegistered_restoreHandlers_other handlers e eid' heq]
        exact hle eid'
    · intro e' he'
      have hne : e'.id ≠ e.id := Ne.symm (hp.1 e' he')
      rw [countRegistered_restoreHandlers_other handlers e e'.id hne]
      exact h0 e' (List.mem_cons_of_mem e he')
    · exact hp.2

/-- C1: for an entity of a registered category, if the requested handler name
is the identity of one of the category's registered handlers (whose
identities are pairwise distinct), then after `registerHandler(entity, name)`
a `getHandlers(category)` query shows the entity registered with exactly the
one handler of that name and with no other handler of its category; if the
requested name is the empty string, the entity ends registered with no
handler of its category. -/
theorem registerHandler_binds_exactly_one
    (st : HandlerMap) (e : DeviceEntity) (n : String)
    (hd : distinctNames (getHandlersOf st e.category)) :
    (n ≠ "" → n ∈ (getHandlersOf st e.category).map (fun h => h.name) →
      ((getHandlersOf (registerHandlerM st e n) e.category).filter
          (fun h => h.hasEntity e.id)).map (fun h => h.name) = [n])
    ∧ (getHandlersOf (registerHandlerM st e "") e.category).filter
        (fun h => h.hasEntity e.id) = [] := by
  constructor
  · intro hne hmem
    rw [getHandlersOf_registerHandlerM_self]
    exact registerHandlerList_filter_named (getHandlersOf st e.category) e n hd hne hmem
  · rw [getHandlersOf_registerHandlerM_self]
    exact registerHandlerList_filter_empty (getHandlersOf st e.category) e

def demoEntity : DeviceEntity :=
  { id := 1, name := ("lamp"), category := Category.lights,
    currentHandler := (""), socketId := none }

def demoHandlers : List Handler :=
  [{ name := ("RandomEffectsHandler"), entities := [] },
   { name := ("SetEffectsHandler"), entities := [] }]

def demoMap : HandlerMap := fun c =>
  match c with
  | Category.lights => demoHandlers
  | _ => []

theorem registerHandler_binds_exactly_one_witness :
    distinctNames (getHandlersOf demoMap demoEntity.category)
    ∧ ((getHandlersOf (registerHandlerM demoMap demoEntity ("SetEffectsHandler"))
          demoEntity.category).filter
        (fun h => h.hasEntity demoEntity.id)).map (fun h => h.name)
        = [("SetEffectsHandler")]
    ∧ (getHandlersOf (registerHandlerM demoMap demoEntity ("")) demoEntity.category).filter
        (fun h => h.hasEntity demoEntity.id) = [] := by
  refine ⟨by decide, ?_, ?_⟩
  · exact (registerHandler_binds_exactly_one demoMap demoEntity ("SetEffectsHandler")
      (by decide)).1 (by decide) (by decide)
  · exact (registerHandler_binds_exactly_one demoMap demoEntity ("")
      (by decide)).2

/-- C2: the mutating handler-manager operations preserve the invariant that
each device entity is registered with at most one handler within its
category: `registerHandler` preserves the at-most-one bound for every entity
id and every category, and the boot restore (`init`/`restoreHandlers`)
establishes it from the constructor state, whose handlers start with no
registered entities, for database entities with pairwise-distinct ids. -/
theorem handlerBindings_at_most_one
    (st : HandlerMap) (e : DeviceEntity) (n : String)
    (ents : List DeviceEntity) (boot : List Handler)
    (hd : ∀ c, distinctNames (getHandlersOf st c))
    (hinv : ∀ c eid, countRegistered (getHandlersOf st c) eid ≤ 1)
    (hbd : distinctNames boot)
    (hboot : ∀ h ∈ boot, h.entities = [])
    (hids : ents.Pairwise (fun a b => a.id ≠ b.id)) :
    (∀ c eid, countRegistered (getHandlersOf (registerHandlerM st e n) c) eid ≤ 1)
    ∧ (∀ eid, countRegistered (initRestore ents boot) eid ≤ 1) := by
  constructor
  · intro c eid
    show countRegistered (registerHandlerM st e n c) eid ≤ 1
    rw [registerHandlerM]
    by_cases hc : c = e.category
    · rw [if_pos hc]
      by_cases heq : eid = e.id
      · subst heq
        exact countRegistered_registerHandlerList_self (st c) e n (hc ▸ hd c)
      · rw [countRegistered_registerHandlerList_other (st c) e n eid heq]
        exact hinv c eid
    · rw [if_neg hc]
      exact hinv c eid
  · apply initRestore_le_one ents boot hbd
    · intro eid
      rw [countRegistered_of_all_empty boot eid hboot]
      exact Nat.zero_le 1
    · intro e' _
      exact countRegistered_of_all_empty boot e'.id hboot
    · exact hids

theorem handlerBindings_at_most_one_witness :
    ((∀ c, distinctNames (getHandlersOf demoMap c))
      ∧ distinctNames demoHandlers
      ∧ (∀ h ∈ demoHandlers, h.entities = [])
      ∧ ([demoEntity].Pairwise (fun a b => a.id ≠ b.id)))
    ∧ (∀ c eid,
        countRegistered (getHandlersOf
          (registerHandlerM demoMap demoEntity ("SetEffectsHandler")) c) eid ≤ 1)
    ∧ (∀ eid, countRegistered (initRestore [demoEntity] demoHandlers) eid ≤ 1) := by
  have hd : ∀ c, distinctNames (getHandlersOf demoMap c) := by
    intro c
    cases c <;> decide
  have hinv : ∀ c eid, countRegistered (getHandlersOf demoMap c) eid ≤ 1 := by
    intro c eid
    cases c <;> simp [getHandlersOf, demoMap, countRegistered, demoHandlers,
      Handler.hasEntity, List.countP, List.countP.go]
  have hmain := handlerBindings_at_most_one demoMap demoEntity ("SetEffectsHandler")
    [demoEntity] demoHandlers hd hinv (by decide) (by decide) (by decide)
  exact ⟨⟨hd, by decide, by decide, by decide⟩, hmain.1, hmain.2⟩

/-- `ClassicRotate.triangleFunction(t, p)`: the alternating linear triangle
wave, with the factor computed as `Math.floor(2 t / p + 0.5)`. -/
def triangleFunction (t : ℚ) (p : ℚ) : ℚ :=
  4 / p * (t - p / 2 * (Int.floor (2 * t / p + 1 / 2) : ℚ))
    * (-1) ^ (Int.floor (2 * t / p + 1 / 2) : ℤ)

/-- The specification's closed form of the triangle wave,
`f(x) = (4/p)·(x − (p/2)·round(2x/p))·(−1)^round(2x/p)`. -/
def specTriangle (x : ℚ) (p : ℚ) : ℚ :=
  4 / p * (x - p / 2 * (round (2 * x / p) : ℚ)) * (-1) ^ (round (2 * x / p) : ℤ)

/-- `ClassicRotate.setPosition`: the pan and tilt targets computed from the
progression and per-fixture offset (the triangle wave is used with its
default period 1 and the result is scaled into the positional range). -/
def setPosition (progression : ℚ) (offset : ℚ) : ℚ × ℚ :=
  (triangleFunction (progression + offset) 1 * 128 + 128,
   triangleFunction (progression * 4 + offset) 1 * 128 + 128)

theorem triangle_eq_spec (t p : ℚ) : triangleFunction t p = specTriangle t p := by
  rw [triangleFunction, specTriangle, round_eq]

theorem floor_shift (t p : ℚ) (hp : p ≠ 0) :
    (Int.floor (2 * (t + p) / p + 1 / 2) : ℤ)
      = Int.floor (2 * t / p + 1 / 2) + 2 := by
  have harg : 2 * (t + p) / p + 1 / 2 = 2 * t / p + 1 / 2 + ((2 : ℤ) : ℚ) := by
    push_cast
    field_simp
    ring
  rw [harg, Int.floor_add_int]

theorem triangle_periodic (t p : ℚ) (hp : 0 < p) :
    triangleFunction (t + p) p = triangleFunction t p := by
  rw [triangleFunction, triangleFunction, floor_shift t p (ne_of_gt hp)]
  push_cast
  rw [zpow_add₀ (by norm_num : (-1 : ℚ) ≠ 0)]
  have h2 : ((-1 : ℚ)) ^ ((2 : ℤ)) = 1 := by norm_num
  rw [h2, mul_one]
  ring

theorem triangle_zero (p : ℚ) : triangleFunction 0 p = 0 := by
  rw [triangleFunction]
  have harg : 2 * (0 : ℚ) / p + 1 / 2 = 1 / 2 := by
    rw [mul_zero, zero_div, zero_add]
  rw [harg]
  have hfl : (Int.floor ((1 : ℚ) / 2) : ℤ) = 0 := by
    rw [Int.floor_eq_zero_iff]
    constructor <;> norm_num
  rw [hfl]
  norm_num

theorem triangle_bounds (t p : ℚ) (hp : 0 < p) :
    -1 ≤ triangleFunction t p ∧ triangleFunction t p ≤ 1 := by
  rw [triangleFunction]
  set k : ℤ := Int.floor (2 * t / p + 1 / 2) with hk
  have h1 : ((k : ℚ)) ≤ 2 * t / p + 1 / 2 := Int.floor_le _
  have h2 : 2 * t / p + 1 / 2 < (k : ℚ) + 1 := Int.lt_floor_add_one _
  have e1 : (2 * t / p) * p = 2 * t := div_mul_cancel₀ _ (ne_of_gt hp)
  have h1' : (k : ℚ) * p ≤ 2 * t + p / 2 := by
    have := mul_le_mul_of_nonneg_right h1 hp.le
    nlinarith [this, e1]
  have h2' : 2 * t + p / 2 < ((k : ℚ) + 1) * p := by
    have := mul_lt_mul_of_pos_right h2 hp
    nlinarith [this, e1]
  have hd1 : -(p / 4) ≤ t - p / 2 * (k : ℚ) := by linarith
  have hd2 : t - p / 2 * (k : ℚ) ≤ p / 4 := by linarith
  have hform : 4 / p * (t - p / 2 * (k : ℚ)) = 4 * (t - p / 2 * (k : ℚ)) / p := by
    ring
  rcases Int.even_or_odd k with he | ho
  · rw [he.neg_one_zpow, mul_one, hform]
    constructor
    · rw [le_div_iff₀ hp]
      linarith
    · rw [div_le_iff₀ hp]
      linarith
  · rw [ho.neg_one_zpow, mul_neg_one, hform]
    have hx1 : 4 * (t - p / 2 * (k : ℚ)) / p ≤ 1 := by
      rw [div_le_iff₀ hp]
      linarith
    have hx2 : -1 ≤ 4 * (t - p / 2 * (k : ℚ)) / p := by
      rw [le_div_iff₀ hp]
      linarith
    constructor
    · linarith
    · linarith

/-- C3: for every rational t and period p > 0, `ClassicRotate`'s
`triangleFunction` equals the spec's closed form
`f(x) = (4/p)·(x − (p/2)·round(2x/p))·(−1)^round(2x/p)`, and `setPosition`
maps pan from `f(progression + offset)` and tilt from
`f(4·progression + offset)`, each scaled into the fixture's positional
range as `f·128 + 128`. -/
theorem classicRotate_matches_spec_form (t p : ℚ) (hp : 0 < p) :
    triangleFunction t p = specTriangle t p
    ∧ ∀ progression offset : ℚ,
        setPosition progression offset
          = (specTriangle (progression + offset) 1 * 128 + 128,
             specTriangle (4 * progression + offset) 1 * 128 + 128) := by
  constructor
  · exact triangle_eq_spec t p
  · intro progression offset
    rw [setPosition, triangle_eq_spec, triangle_eq_spec]
    have hcomm : progression * 4 = 4 * progression := mul_comm _ _
    rw [hcomm]

theorem classicRotate_matches_spec_form_witness :
    (0 : ℚ) < 1
    ∧ triangleFunction 3 1 = specTriangle 3 1
    ∧ setPosition 2 5
        = (specTriangle (2 + 5) 1 * 128 + 128, specTriangle (4 * 2 + 5) 1 * 128 + 128) := by
  refine ⟨by decide, (classicRotate_matches_spec_form 3 1 (by decide)).1, ?_⟩
  have := (classicRotate_matches_spec_form 3 1 (by decide)).2 2 5
  simpa using this

/-- C4: for every period p > 0 the triangle wave is p-periodic, vanishes at
0, and is bounded in [-1, 1]; consequently the pan and tilt values produced
by `setPosition` (f·128 + 128) lie within [0, 256] for every progression and
offset. -/
theorem classicRotate_wave_bounded (p : ℚ) (hp : 0 < p) :
    (∀ t, triangleFunction (t + p) p = triangleFunction t p)
    ∧ triangleFunction 0 p = 0
    ∧ (∀ t, -1 ≤ triangleFunction t p ∧ triangleFunction t p ≤ 1)
    ∧ (∀ progression offset : ℚ,
        0 ≤ (setPosition progression offset).1
        ∧ (setPosition progression offset).1 ≤ 256
        ∧ 0 ≤ (setPosition progression offset).2
        ∧ (setPosition progression offset).2 ≤ 256) := by
  refine ⟨fun t => triangle_periodic t p hp, triangle_zero p, fun t => triangle_bounds t p hp, ?_⟩
  intro progression offset
  have hpan := triangle_bounds (progression + offset) 1 one_pos
  have htilt := triangle_bounds (progression * 4 + offset) 1 one_pos
  rw [setPosition]
  dsimp only
  refine ⟨by linarith [hpan.1], by linarith [hpan.2], by linarith [htilt.1],
    by linarith [htilt.2]⟩

theorem classicRotate_wave_bounded_witness :
    (0 : ℚ) < 1
    ∧ triangleFunction (3 + 1) 1 = triangleFunction 3 1
    ∧ triangleFunction 0 1 = 0
    ∧ (-1 ≤ triangleFunction 3 1 ∧ triangleFunction 3 1 ≤ 1)
    ∧ (0 ≤ (setPosition 2 5).1 ∧ (setPosition 2 5).1 ≤ 256
        ∧ 0 ≤ (setPosition 2 5).2 ∧ (setPosition 2 5).2 ≤ 256) := by
  have h := classicRotate_wave_bounded 1 (by decide)
  exact ⟨by decide, h.1 3, h.2.1, h.2.2.1 3, h.2.2.2 2 5⟩

/-- A cue of a mix tape's feed: a timestamp (seconds from tape start) and
its event type tag (horn, song, beat, effect, other). -/
structure FeedCue where
  timestamp : ℚ
  kind : String
deriving DecidableEq

/-- The tape playback state: elapsed seconds and the next-undispatched-cue
index. -/
structure TapeState where
  elapsed : ℚ
  nextIndex : Nat
deriving DecidableEq

/-- The feed is authored in order of non-decreasing timestamps. -/
def sortedFeed (feed : List FeedCue) : Prop :=
  feed.Pairwise (fun a b => a.timestamp ≤ b.timestamp)

instance (feed : List FeedCue) : Decidable (sortedFeed feed) := by
  unfold sortedFeed
  infer_instance

/-- Modelled from the spec: `CenturionMode.skip` is not under the provided
sources.  Skip re-anchors elapsed time to the target clamped to ≥ 0 and
recomputes the next-cue index as the first cue with timestamp strictly
greater than the target. -/
def tapeSkip (feed : List FeedCue) (s : ℚ) : TapeState :=
  { elapsed := max s 0,
    nextIndex := feed.findIdx (fun c => decide (s < c.timestamp)) }

/-- Modelled from the spec: the cues dispatched by one tick of the playback
loop at elapsed time e — every not-yet-dispatched cue whose timestamp is
≤ e, taken in feed order from the next-cue index. -/
def tickDispatch (feed : List FeedCue) (i : Nat) (e : ℚ) : List FeedCue :=
  (feed.drop i).takeWhile (fun c => decide (c.timestamp ≤ e))

/-- The next-cue index after a tick at elapsed time e: it advances
monotonically past every cue just dispatched. -/
def tickNext (feed : List FeedCue) (i : Nat) (e : ℚ) : Nat :=
  i + (tickDispatch feed i e).length

/-- All cues dispatched by a run of ticks at the given elapsed times. -/
def runTicks (feed : List FeedCue) (i : Nat) : List ℚ → List FeedCue
  | [] => []
  | e :: es => tickDispatch feed i e ++ runTicks feed (tickNext feed i e) es

/-- The playback loop viewed on the remaining (undispatched) suffix. -/
def runAux (rem : List FeedCue) : List ℚ → List FeedCue
  | [] => []
  | e :: es =>
      rem.takeWhile (fun c => decide (c.timestamp ≤ e))
        ++ runAux (rem.dropWhile (fun c => decide (c.timestamp ≤ e))) es

theorem drop_length_takeWhile (p : FeedCue → Bool) (l : List FeedCue) :
    l.drop (l.takeWhile p).length = l.dropWhile p := by
  induction l with
  | nil => rfl
  | cons x xs ih =>
    by_cases hx : p x
    · rw [List.takeWhile_cons_of_pos hx, List.dropWhile_cons_of_pos hx,
        List.length_cons, List.drop_succ_cons]
      exact ih
    · rw [List.takeWhile_cons_of_neg hx, List.dropWhile_cons_of_neg hx,
        List.length_nil, List.drop_zero]

theorem runTicks_eq_runAux (es : List ℚ) :
    ∀ (feed : List FeedCue) (i : Nat), runTicks feed i es = runAux (feed.drop i) es := by
  induction es with
  | nil => intro feed i; rfl
  | cons e rest ih =>
    intro feed i
    rw [runTicks, runAux, ih feed (tickNext feed i e)]
    rw [tickNext, tickDispatch]
    rw [← List.drop_drop]
    rw [drop_length_takeWhile]

theorem takeWhile_eq_filter_of_sorted (e : ℚ) (l : List FeedCue)
    (hs : sortedFeed l) :
    l.takeWhile (fun c => decide (c.timestamp ≤ e))
      = l.filter (fun c => decide (c.timestamp ≤ e)) := by
  induction l with
  | nil => rfl
  | cons x xs ih =>
    rw [sortedFeed, List.pairwise_cons] at hs
    by_cases hx : x.timestamp ≤ e
    · rw [List.takeWhile_cons_of_pos (by simpa using hx),
        List.filter_cons_of_pos (by simpa using hx)]
      rw [ih hs.2]
    · rw [List.takeWhile_cons_of_neg (by simpa using hx),
        List.filter_cons_of_neg (by simpa using hx)]
      symm
      rw [List.filter_eq_nil_iff]
      intro c hc
      have := hs.1 c hc
      simp only [decide_eq_true_eq]
      intro hle
      exact hx (le_trans this hle)

theorem dropWhile_eq_filter_of_sorted (e : ℚ) (l : List FeedCue)
    (hs : sortedFeed l) :
    l.dropWhile (fun c => decide (c.timestamp ≤ e))
      = l.filter (fun c => decide (e < c.timestamp)) := by
  induction l with
  | nil => rfl
  | cons x xs ih =>
    rw [sortedFeed, List.pairwise_cons] at hs
    by_cases hx : x.timestamp ≤ e
    · rw [List.dropWhile_cons_of_pos (by simpa using hx),
        List.filter_cons_of_neg (by simpa using (not_lt.mpr hx))]
      exact ih hs.2
    · rw [List.dropWhile_cons_of_neg (by simpa using hx),
        List.filter_cons_of_pos (by simpa using (not_le.mp hx))]
      congr 1
      symm
      rw [List.filter_eq_self]
      intro c hc
      have := hs.1 c hc
      simp only [decide_eq_true_eq]
      exact lt_of_lt_of_le (not_le.mp hx) this

theorem drop_findIdx_eq_filter_of_sorted (a : ℚ) (l : List FeedCue)
    (hs : sortedFeed l) :
    l.drop (l.findIdx (fun c => decide (a < c.timestamp)))
      = l.filter (fun c => decide (a < c.timestamp)) := by
  induction l with
  | nil => rfl
  | cons x xs ih =>
    rw [sortedFeed, List.pairwise_cons] at hs
    by_cases hx : a < x.timestamp
    · rw [List.findIdx_cons]
      simp only [hx, decide_True, cond_true, List.drop_zero]
      symm
      rw [List.filter_eq_self]
      intro c hc
      rcases List.mem_cons.mp hc with hc | hc
      · subst hc
        simpa using hx
      · have := hs.1 c hc
        simp only [decide_eq_true_eq]
        exact lt_of_lt_of_le hx this
    · rw [List.findIdx_cons]
      simp only [hx, decide_False, cond_false]
      rw [List.drop_succ_cons, List.filter_cons_of_neg (by simpa using hx)]
      exact ih hs.2

theorem sortedFeed_filter (p : FeedCue → Bool) (l : List FeedCue)
    (hs : sortedFeed l) : sortedFeed (l.filter p) := by
  rw [sortedFeed]
  exact List.Pairwise.filter p hs

theorem le_foldl_max (b : ℚ) (es : List ℚ) : b ≤ es.foldl max b := by
  induction es generalizing b with
  | nil => exact le_refl b
  | cons e rest ih =>
    calc b ≤ max b e := le_max_left b e
    _ ≤ rest.foldl max (max b e) := ih (max b e)

/-- An interval filter over a sorted feed splits at any intermediate bound:
the cues with timestamp ≤ E are the cues with timestamp ≤ e followed by the
cues with e < timestamp ≤ E. -/
theorem filter_le_split (l : List FeedCue) (e E : ℚ) (hs : sortedFeed l)
    (heE : e ≤ E) :
    l.filter (fun c => decide (c.timestamp ≤ E))
      = l.filter (fun c => decide (c.timestamp ≤ e))
        ++ (l.filter (fun c => decide (e < c.timestamp))).filter
            (fun c => decide (c.timestamp ≤ E)) := by
  induction l with
  | nil => rfl
  | cons x xs ih =>
    rw [sortedFeed, List.pairwise_cons] at hs
    have ihx := ih hs.2
    by_cases hx : x.timestamp ≤ e
    · have h1 : x.timestamp ≤ E := le_trans hx heE
      have h2 : ¬ e < x.timestamp := not_lt.mpr hx
      simp only [List.filter_cons, hx, h1, h2, decide_eq_true_eq, if_true,
        if_false, decide_True, decide_False, List.cons_append]
      simpa [List.filter_cons, hx, h1, h2] using ihx
    · have hgt : e < x.timestamp := not_le.mp hx
      have hxs : xs.filter (fun c => decide (c.timestamp ≤ e)) = [] := by
        rw [List.filter_eq_nil_iff]
        intro c hc
        have := hs.1 c hc
        simp only [decide_eq_true_eq]
        intro hle
        exact hx (le_trans this hle)
      have ihx' := ihx
      rw [hxs, List.nil_append] at ihx'
      by_cases hxE : x.timestamp ≤ E
      · simp only [List.filter_cons, hx, hgt, hxE, hxs, decide_eq_true_eq,
          if_true, if_false, decide_True, decide_False]
        simpa [List.filter_cons, hx, hgt, hxE, hxs] using ihx'
      · simp only [List.filter_cons, hx, hgt, hxE, hxs, decide_eq_true_eq,
          if_true, if_false, decide_True, decide_False]
        simpa [List.filter_cons, hx, hgt, hxE, hxs] using ihx'

/-- Running the playback loop over a remaining suffix whose cues all lie
strictly after the anchor dispatches exactly the cues reached by the running
maximum of the tick times, in feed order. -/
theorem runAux_filter (es : List ℚ) :
    ∀ (rem : List FeedCue) (a : ℚ), sortedFeed rem →
      (∀ c ∈ rem, a < c.timestamp) →
      runAux rem es = rem.filter (fun c => decide (c.timestamp ≤ es.foldl max a)) := by
  induction es with
  | nil =>
    intro rem a _ hgt
    rw [runAux]
    symm
    rw [List.filter_eq_nil_iff]
    intro c hc
    simp only [List.foldl_nil, decide_eq_true_eq]
    exact not_le.mpr (hgt c hc)
  | cons e rest ih =>
    intro rem a hs hgt
    rw [runAux, takeWhile_eq_filter_of_sorted e rem hs,
      dropWhile_eq_filter_of_sorted e rem hs]
    have hrec := ih (rem.filter (fun c => decide (e < c.timestamp))) (max a e)
      (sortedFeed_filter _ rem hs)
      (by
        intro c hc
        rcases List.mem_filter.mp hc with ⟨hcm, hce⟩
        exact max_lt (hgt c hcm) (by simpa using hce))
    rw [hrec]
    show _ = rem.filter (fun c => decide (c.timestamp ≤ (e :: rest).foldl max a))
    rw [List.foldl_cons]
    exact (filter_le_split rem e (rest.foldl max (max a e)) hs
      (le_trans (le_max_right a e) (le_foldl_max (max a e) rest))).symm

/-- C9: for every loaded tape feed (sorted by timestamp) and every skip
target s, `skip(s)` re-anchors elapsed time to s clamped to ≥ 0 and sets
the next-cue index to the first cue with timestamp > s; any subsequent run
of playback ticks dispatches exactly the cues with s < timestamp ≤ the
largest elapsed time reached — so cues with timestamp ≤ s are never
dispatched again, and every cue with timestamp > s is dispatched exactly
once, when elapsed time reaches its timestamp. -/
theorem centurion_skip_dispatch (feed : List FeedCue) (s : ℚ) (es : List ℚ)
    (hs : sortedFeed feed) :
    (tapeSkip feed s).elapsed = max s 0
    ∧ (tapeSkip feed s).nextIndex
        = feed.findIdx (fun c => decide (s < c.timestamp))
    ∧ runTicks feed (tapeSkip feed s).nextIndex es
        = feed.filter (fun c =>
            decide (s < c.timestamp) && decide (c.timestamp ≤ es.foldl max s)) := by
  refine ⟨rfl, rfl, ?_⟩
  rw [runTicks_eq_runAux]
  show runAux (feed.drop (feed.findIdx (fun c => decide (s < c.timestamp)))) es = _
  rw [drop_findIdx_eq_filter_of_sorted s feed hs]
  rw [runAux_filter es (feed.filter (fun c => decide (s < c.timestamp))) s
    (sortedFeed_filter _ feed hs)
    (by
      intro c hc
      rcases List.mem_filter.mp hc with ⟨_, hcs⟩
      simpa using hcs)]
  rw [List.filter_filter]
  apply List.filter_congr
  intro c _
  exact Bool.and_comm _ _

/-- The spec's worked scenario: a tape with cues at 0, 5 and 10 seconds,
skipped to 6, then ticked at 6 and at 10. -/
def demoFeed : List FeedCue :=
  [{ timestamp := 0, kind := ("horn") },
   { timestamp := 5, kind := ("song") },
   { timestamp := 10, kind := ("horn") }]

theorem centurion_skip_dispatch_witness :
    sortedFeed demoFeed
    ∧ (tapeSkip demoFeed 6).elapsed = max 6 0
    ∧ (tapeSkip demoFeed 6).nextIndex
        = demoFeed.findIdx (fun c => decide ((6 : ℚ) < c.timestamp))
    ∧ runTicks demoFeed (tapeSkip demoFeed 6).nextIndex [6, 10]
        = demoFeed.filter (fun c =>
            decide ((6 : ℚ) < c.timestamp)
              && decide (c.timestamp ≤ ([6, 10] : List ℚ).foldl max 6)) := by
  have h := centurion_skip_dispatch demoFeed 6 [6, 10] (by decide)
  exact ⟨by decide, h.1, h.2.1, h.2.2⟩

/-- The connect listener's per-entity update installed by
`HandlerManager.init`: an entity whose name equals the connecting user's
name gets the connection's socket id; others are untouched. -/
def connectUpdateEntity (uname sid : String) (e : DeviceEntity) : DeviceEntity :=
  if e.name = uname then { e with socketId := some sid } else e

/-- The disconnect listener's per-entity update: a matching entity's socket
id is cleared. -/
def disconnectUpdateEntity (uname : String) (e : DeviceEntity) : DeviceEntity :=
  if e.name = uname then { e with socketId := none } else e

def onConnectHandler (uname sid : String) (h : Handler) : Handler :=
  { h with entities := h.entities.map (connectUpdateEntity uname sid) }

def onDisconnectHandler (uname : String) (h : Handler) : Handler :=
  { h with entities := h.entities.map (disconnectUpdateEntity uname) }

/-- The state after the connect listener ran over all handler lists. -/
def onConnectState (st : HandlerMap) (uname sid : String) : HandlerMap :=
  fun c => (st c).map (onConnectHandler uname sid)

def onDisconnectState (st : HandlerMap) (uname : String) : HandlerMap :=
  fun c => (st c).map (onDisconnectHandler uname)

def allHandlers (st : HandlerMap) : List Handler :=
  st Category.audio ++ st Category.lights ++ st Category.screen

/-- The socket pushes emitted by the connect listener: one
(target socket, event, handler name) triple per matching entity. -/
def onConnectMsgs (st : HandlerMap) (uname sid : String) :
    List (String × String × String) :=
  (allHandlers st).flatMap (fun h =>
    (h.entities.filter (fun e => decide (e.name = uname))).map
      (fun _ => (sid, ("handler_set"), h.name)))

/-- The entities persisted (saved) by the connect listener, with their new
socket id. -/
def onConnectSaved (st : HandlerMap) (uname sid : String) : List DeviceEntity :=
  (allHandlers st).flatMap (fun h =>
    (h.entities.filter (fun e => decide (e.name = uname))).map
      (connectUpdateEntity uname sid))

def onDisconnectMsgs (st : HandlerMap) (uname sid : String) :
    List (String × String × String) :=
  (allHandlers st).flatMap (fun h =>
    (h.entities.filter (fun e => decide (e.name = uname))).map
      (fun _ => (sid, ("handler_remove"), h.name)))

def onDisconnectSaved (st : HandlerMap) (uname : String) : List DeviceEntity :=
  (allHandlers st).flatMap (fun h =>
    (h.entities.filter (fun e => decide (e.name = uname))).map
      (disconnectUpdateEntity uname))

theorem mem_allHandlers_of_mem (st : HandlerMap) (c : Category) (h : Handler)
    (hh : h ∈ getHandlersOf st c) : h ∈ allHandlers st := by
  rw [allHandlers]
  cases c
  · exact List.mem_append_left _ (List.mem_append_left _ hh)
  · exact List.mem_append_left _ (List.mem_append_right _ hh)
  · exact List.mem_append_right _ hh

/-- C5: after `HandlerManager.init` installed the connectivity listeners, a
connect event (identity, socket id) updates, persists and notifies every
entity registered with some handler whose name equals the identity: the
entity's socket id becomes the given id, the updated entity is saved, and a
handler_set message with the handler's name is pushed to that connection;
the disconnect event symmetrically clears and persists the socket id and
pushes a handler_remove message; entities whose name does not match are
unaffected. -/
theorem handlerManager_connectivity (st : HandlerMap) (uname sid : String)
    (c : Category) (h : Handler) (e : DeviceEntity)
    (hh : h ∈ getHandlersOf st c) (he : e ∈ h.entities) :
    onConnectHandler uname sid h ∈ getHandlersOf (onConnectState st uname sid) c
    ∧ onDisconnectHandler uname h ∈ getHandlersOf (onDisconnectState st uname) c
    ∧ (e.name = uname →
        (connectUpdateEntity uname sid e).socketId = some sid
        ∧ connectUpdateEntity uname sid e ∈ (onConnectHandler uname sid h).entities
        ∧ (sid, ("handler_set"), h.name) ∈ onConnectMsgs st uname sid
        ∧ connectUpdateEntity uname sid e ∈ onConnectSaved st uname sid
        ∧ (disconnectUpdateEntity uname e).socketId = none
        ∧ (sid, ("handler_remove"), h.name) ∈ onDisconnectMsgs st uname sid
        ∧ disconnectUpdateEntity uname e ∈ onDisconnectSaved st uname)
    ∧ (e.name ≠ uname →
        connectUpdateEntity uname sid e = e
        ∧ disconnectUpdateEntity uname e = e) := by
  have hall : h ∈ allHandlers st := mem_allHandlers_of_mem st c h hh
  have hefil : e.name = uname →
      e ∈ h.entities.filter (fun e => decide (e.name = uname)) := by
    intro hname
    exact List.mem_filter.mpr ⟨he, by simpa using hname⟩
  refine ⟨List.mem_map_of_mem _ hh, List.mem_map_of_mem _ hh, ?_, ?_⟩
  · intro hname
    refine ⟨?_, ?_, ?_, ?_, ?_, ?_, ?_⟩
    · rw [connectUpdateEntity, if_pos hname]
    · exact List.mem_map_of_mem _ he
    · exact List.mem_flatMap.mpr ⟨h, hall,
        List.mem_map.mpr ⟨e, hefil hname, rfl⟩⟩
    · exact List.mem_flatMap.mpr ⟨h, hall,
        List.mem_map.mpr ⟨e, hefil hname, rfl⟩⟩
    · rw [disconnectUpdateEntity, if_pos hname]
    · exact List.mem_flatMap.mpr ⟨h, hall,
        List.mem_map.mpr ⟨e, hefil hname, rfl⟩⟩
    · exact List.mem_flatMap.mpr ⟨h, hall,
        List.mem_map.mpr ⟨e, hefil hname, rfl⟩⟩
  · intro hname
    constructor
    · rw [connectUpdateEntity, if_neg hname]
    · rw [disconnectUpdateEntity, if_neg hname]

def demoEntityOnline : DeviceEntity :=
  { id := 7, name := ("deviceA"), category := Category.audio,
    currentHandler := ("SimpleAudioHandler"), socketId := none }

def demoAudioHandler : Handler :=
  { name := ("SimpleAudioHandler"), entities := [demoEntityOnline] }

def demoMapConn : HandlerMap := fun c =>
  match c with
  | Category.audio => [demoAudioHandler]
  | _ => []

theorem handlerManager_connectivity_witness :
    (demoAudioHandler ∈ getHandlersOf demoMapConn Category.audio
      ∧ demoEntityOnline ∈ demoAudioHandler.entities
      ∧ demoEntityOnline.name = ("deviceA"))
    ∧ (connectUpdateEntity ("deviceA") ("sock1") demoEntityOnline).socketId
        = some ("sock1")
    ∧ (("sock1"), ("handler_set"), demoAudioHandler.name)
        ∈ onConnectMsgs demoMapConn ("deviceA") ("sock1")
    ∧ (disconnectUpdateEntity ("deviceA") demoEntityOnline).socketId = none
    ∧ (("sock1"), ("handler_remove"), demoAudioHandler.name)
        ∈ onDisconnectMsgs demoMapConn ("deviceA") ("sock1") := by
  have h := handlerManager_connectivity demoMapConn ("deviceA") ("sock1")
    Category.audio demoAudioHandler demoEntityOnline (by decide) (by decide)
  have hb := h.2.2.1 (by decide)
  exact ⟨⟨by decide, by decide, by decide⟩, hb.1, hb.2.2.1, hb.2.2.2.2.1,
    hb.2.2.2.2.2.1⟩

/-- The state of `ServerSettingsStore`: the singleton's `initialized` flag
and the in-memory key-value settings. -/
structure SettingsStore where
  initialized : Bool
  settings : List (String × String)
deriving DecidableEq

/-- `ServerSettingsStore.initialize`: throws when already initialized;
otherwise merges the database rows with the defaults (missing keys get
their default value) and sets the `initialized` flag. -/
def settingsStoreInit (defaults dbRows : List (String × String))
    (st : SettingsStore) : Except String SettingsStore :=
  if st.initialized then Except.error ("ServerSettingsStore already initialized!")
  else Except.ok
    { initialized := true,
      settings := defaults.map (fun kv =>
        (kv.1, (((dbRows.find? (fun r => decide (r.1 = kv.1))).map Prod.snd).getD kv.2))) }

/-- The state of `HandlerManager`: its `initialized` flag and handler map. -/
structure HandlerManagerState where
  initialized : Bool
  handlers : HandlerMap

/-- `HandlerManager.init`: guarded by the `initialized` flag, then restores
all persisted bindings.  Faithful to the source, which never assigns
`this.initialized = true`. -/
def handlerManagerInit (db : Category → List DeviceEntity)
    (st : HandlerManagerState) : Except String HandlerManagerState :=
  if st.initialized then Except.error ("HandlerManager already initialized.")
  else Except.ok
    { st with handlers := fun c => initRestore (db c) (st.handlers c) }

def isOkE {ε α : Type} (x : Except ε α) : Bool :=
  match x with
  | Except.ok _ => true
  | Except.error _ => false

/-- C6 (code-bug demonstration): a second `ServerSettingsStore.initialize`
after a successful first one raises the documented error, but a second
`HandlerManager.init` succeeds silently — the source checks its
`initialized` flag yet never sets it, so the guard can never fire and
re-initialization is not rejected, contrary to the claim and to the
guard's own error message. -/
theorem doubleInit_guard_divergence :
    (settingsStoreInit [] [] { initialized := false, settings := [] }
        >>= settingsStoreInit [] [])
      = Except.error ("ServerSettingsStore already initialized!")
    ∧ isOkE ((handlerManagerInit (fun _ => [])
          { initialized := false, handlers := fun _ => [] })
        >>= handlerManagerInit (fun _ => [])) = true := by
  exact ⟨rfl, rfl⟩

/-- A Centurion mix tape: its name and ordered cue feed. -/
structure Tape where
  name : String
  feed : List FeedCue
deriving DecidableEq

/-- The Centurion mode object held in the mode-manager slot.  Fields beyond
the sources (readiness of the audio asset, playback state) are modelled
from the spec. -/
structure CenturionMode where
  tape : Tape
  lights : List DeviceEntity
  screens : List DeviceEntity
  audios : List DeviceEntity
  startTime : ℚ
  playing : Bool
  ready : Bool
  playback : TapeState
deriving DecidableEq

/-- Modelled from the spec: `CenturionMode.start` is not under the provided
sources.  It returns a not-ready signal (false) — not an exception — when
required collaborators such as the audio asset are not yet prepared, and
otherwise transitions to Playing. -/
def CenturionMode.start (m : CenturionMode) : Bool × CenturionMode :=
  if m.ready then (true, { m with playing := true }) else (false, m)

/-- Modelled from the spec: `stop` halts playback, leaving the rest of the
state intact for inspection. -/
def CenturionMode.stop (m : CenturionMode) : CenturionMode :=
  { m with playing := false }

/-- Modelled from the spec: `skip` re-anchors the playback state on the
loaded tape's feed. -/
def CenturionMode.skipSeconds (m : CenturionMode) (s : ℚ) : CenturionMode :=
  { m with playback := tapeSkip m.tape.feed s }

/-- The typed mode-disabled error thrown by the Centurion controller. -/
structure ModeDisabledError where
  message : String
deriving DecidableEq

/-- `CenturionController.getCenturion`: 404 mode-disabled error when no
Centurion mode instance is enabled, otherwise the response triple
(tape name, start time, playing). -/
def getCenturion (m : Option CenturionMode) :
    Except ModeDisabledError (String × ℚ × Bool) :=
  match m with
  | none => Except.error { message := ("Centurion not enabled") }
  | some mode => Except.ok (mode.tape.name, mode.startTime, mode.playing)

/-- `CenturionController.startCenturion`: mode-disabled error when absent;
428 with a retry message when `start()` reports not-ready; 204 otherwise. -/
def startCenturion (m : Option CenturionMode) :
    Except ModeDisabledError (Nat × String × CenturionMode) :=
  match m with
  | none => Except.error { message := ("Centurion not enabled") }
  | some mode =>
      match mode.start with
      | (false, m2) =>
          Except.ok (428,
            ("Centurion not yet fully initialized. Please wait and try again later"),
            m2)
      | (true, m2) => Except.ok (204, (""), m2)

/-- `CenturionController.skipCenturion`: mode-disabled error when absent;
otherwise skips and returns 204. -/
def skipCenturion (m : Option CenturionMode) (s : ℚ) :
    Except ModeDisabledError (Nat × String × CenturionMode) :=
  match m with
  | none => Except.error { message := ("Centurion not enabled") }
  | some mode => Except.ok (204, (""), mode.skipSeconds s)

/-- `CenturionController.stopCenturion`: mode-disabled error when absent;
otherwise stops and returns 204. -/
def stopCenturion (m : Option CenturionMode) :
    Except ModeDisabledError (Nat × String × CenturionMode) :=
  match m with
  | none => Except.error { message := ("Centurion not enabled") }
  | some mode => Except.ok (204, (""), mode.stop)

/-- C7: every Centurion controller operation surfaces the typed
"Centurion not enabled" mode-disabled condition when no mode instance is
enabled, performing no mode mutation; and when the mode is enabled but not
ready, `startCenturion` returns — not throws — a 428 not-ready result with
the mode unchanged, distinct from the 404 NotFound condition. -/
theorem centurionController_error_surface (s : ℚ) (m : CenturionMode)
    (hready : m.ready = false) :
    getCenturion none = Except.error { message := ("Centurion not enabled") }
    ∧ startCenturion none = Except.error { message := ("Centurion not enabled") }
    ∧ skipCenturion none s = Except.error { message := ("Centurion not enabled") }
    ∧ stopCenturion none = Except.error { message := ("Centurion not enabled") }
    ∧ startCenturion (some m)
        = Except.ok (428,
            ("Centurion not yet fully initialized. Please wait and try again later"),
            m)
    ∧ (428 : Nat) ≠ 404 := by
  refine ⟨rfl, rfl, rfl, rfl, ?_, by decide⟩
  rw [startCenturion, CenturionMode.start, if_neg]
  rw [hready]
  exact Bool.false_ne_true

def demoTape : Tape := { name := ("mix1"), feed := demoFeed }

def demoMode : CenturionMode :=
  { tape := demoTape, lights := [], screens := [], audios := [],
    startTime := 0, playing := false, ready := false,
    playback := { elapsed := 0, nextIndex := 0 } }

theorem centurionController_error_surface_witness :
    demoMode.ready = false
    ∧ getCenturion none = Except.error { message := ("Centurion not enabled") }
    ∧ startCenturion none = Except.error { message := ("Centurion not enabled") }
    ∧ startCenturion (some demoMode)
        = Except.ok (428,
            ("Centurion not yet fully initialized. Please wait and try again later"),
            demoMode) := by
  have h := centurionController_error_surface 0 demoMode (by decide)
  exact ⟨by decide, h.1, h.2.1, h.2.2.2.2.1⟩

/-- The request body of the mode-enable endpoints: per-category entity id
lists. -/
structure EnableModeParams where
  lightsGroupIds : List Nat
  screenIds : List Nat
  audioIds : List Nat
deriving DecidableEq

/-- The Centurion enable request: the id lists plus the tape name. -/
structure CenturionParams where
  base : EnableModeParams
  centurionName : String
deriving DecidableEq

/-- The persisted entities visible to the mode controller, by category. -/
structure EntityDB where
  lightsGroups : List DeviceEntity
  screens : List DeviceEntity
  audios : List DeviceEntity
deriving DecidableEq

/-- `ModeController.findEntities`: the repository rows whose id is in the
given id list (`find` with an `In(ids)` clause). -/
def findEntities (rows : List DeviceEntity) (ids : List Nat) : List DeviceEntity :=
  rows.filter (fun r => ids.contains r.id)

/-- `ModeController.mapBodyToEntities`, faithful to the source: all three
lookups — lights, screens and audios — are performed with
`params.lightsGroupIds`. -/
def mapBodyToEntities (db : EntityDB) (p : EnableModeParams) :
    List DeviceEntity × List DeviceEntity × List DeviceEntity :=
  (findEntities db.lightsGroups p.lightsGroupIds,
   findEntities db.screens p.lightsGroupIds,
   findEntities db.audios p.lightsGroupIds)

/-- Modelled from the spec: constructing and initializing a fresh
`CenturionMode` from resolved entities and loading a tape resets playback
to elapsed 0 and cue index 0; the audio asset starts unprepared. -/
def mkCenturionMode (l scr a : List DeviceEntity) (tape : Tape) : CenturionMode :=
  { tape := tape, lights := l, screens := scr, audios := a,
    startTime := 0, playing := false, ready := false,
    playback := { elapsed := 0, nextIndex := 0 } }

/-- The mode manager's Centurion slot. -/
structure ModeManagerState where
  centurion : Option CenturionMode
deriving DecidableEq

/-- `ModeController.enableCenturion`: resolves the entities, looks the tape
up by name; on a miss it returns 404 with "Centurion tape not found."
without invoking `enableMode`; otherwise it installs the new mode under the
centurion key and returns 204. -/
def enableCenturionOp (tapesList : List Tape) (db : EntityDB)
    (mm : ModeManagerState) (p : CenturionParams) :
    Nat × String × ModeManagerState :=
  let ents := mapBodyToEntities db p.base
  match tapesList.find? (fun t => decide (t.name = p.centurionName)) with
  | none => (404, ("Centurion tape not found."), mm)
  | some tape =>
      (204, (""),
        { mm with centurion := some (mkCenturionMode ents.1 ents.2.1 ents.2.2 tape) })

/-- C8: when the requested tape name matches no known tape,
`enableCenturion` returns the typed 404 "Centurion tape not found." result
and does not enable the mode: the mode manager's state is returned
unchanged, so no Centurion instance is installed for the centurion key. -/
theorem enableCenturion_tape_not_found (tapesList : List Tape) (db : EntityDB)
    (mm : ModeManagerState) (p : CenturionParams)
    (hnone : tapesList.find? (fun t => decide (t.name = p.centurionName)) = none) :
    enableCenturionOp tapesList db mm p
      = (404, ("Centurion tape not found."), mm) := by
  rw [enableCenturionOp]
  rw [hnone]

def demoLightsGroup : DeviceEntity :=
  { id := 1, name := ("lg1"), category := Category.lights,
    currentHandler := (""), socketId := none }

def demoScreen : DeviceEntity :=
  { id := 2, name := ("sc1"), category := Category.screen,
    currentHandler := (""), socketId := none }

def demoAudio : DeviceEntity :=
  { id := 3, name := ("au1"), category := Category.audio,
    currentHandler := (""), socketId := none }

def demoDB : EntityDB :=
  { lightsGroups := [demoLightsGroup], screens := [demoScreen],
    audios := [demoAudio] }

def demoParams : EnableModeParams :=
  { lightsGroupIds := [1], screenIds := [2], audioIds := [3] }

theorem enableCenturion_tape_not_found_witness :
    ([demoTape].find? (fun t => decide (t.name = ("nope"))) = none)
    ∧ enableCenturionOp [demoTape] demoDB { centurion := none }
        { base := demoParams, centurionName := ("nope") }
        = (404, ("Centurion tape not found."), { centurion := none }) := by
  refine ⟨by decide, ?_⟩
  exact enableCenturion_tape_not_found [demoTape] demoDB { centurion := none }
    { base := demoParams, centurionName := ("nope") } (by decide)

/-- C10 (code-bug demonstration): `mapBodyToEntities` resolves the screen
and audio entities with `params.lightsGroupIds` instead of
`params.screenIds` and `params.audioIds` — the request's `screenIds` and
`audioIds` are never consulted.  With a database holding screen id 2 and
audio id 3 and a request asking for exactly those ids, the mode receives no
screens and no audios, while a lookup with the per-category id lists (the
claimed behaviour) finds them. -/
theorem mapBodyToEntities_ignores_per_category_ids :
    (mapBodyToEntities demoDB demoParams).2.1 = []
    ∧ (mapBodyToEntities demoDB demoParams).2.2 = []
    ∧ findEntities demoDB.screens demoParams.screenIds = [demoScreen]
    ∧ findEntities demoDB.audios demoParams.audioIds = [demoAudio]
    ∧ (mapBodyToEntities demoDB demoParams).2.1
        ≠ findEntities demoDB.screens demoParams.screenIds
    ∧ (mapBodyToEntities demoDB demoParams).2.2
        ≠ findEntities demoDB.audios demoParams.audioIds := by
  refine ⟨by decide, by decide, by decide, by decide, by decide, by decide⟩

end Aurora
